import Mathlib

/-!
Verification of the gymbot workout progression engine (src/workouts.py)
and of the Action Registry described in the design document.

Conventions of the shallow embedding:
* Python `float` is modelled by `ℚ`; `round(x, 2)` is modelled by
  round-half-to-even on exact rationals (`round2` below).  All weight
  arithmetic appearing in the verified properties is exact at two
  decimal places, so no binary-float rounding artefact is involved.
* Python `int` is modelled by `ℤ` (it is clamped with `max(0, ·)`).
* `uuid.uuid4()` produces opaque identifiers that no verified property
  observes; it is modelled by a fixed placeholder string.
* In-place mutation is modelled by functions returning the updated value.
* Partial operations (`min`/`max` of an empty sequence, `list[0]` of an
  empty list) are modelled with `Option`/`Except`; the error constructors
  record which Python exception would be raised.
-/

namespace Gymbot

/-- Python round-half-to-even of a rational to an integer. -/
def roundHalfEven (q : ℚ) : ℤ :=
  let f := q.floor
  if q - f < 1/2 then f
  else if 1/2 < q - f then f + 1
  else if f % 2 = 0 then f else f + 1

/-- `round(x, 2)` from Python, on exact rationals. -/
def round2 (q : ℚ) : ℚ := (roundHalfEven (q * 100) : ℚ) / 100

/-- `ExerciseTemplate` dataclass (src/workouts.py lines 6-13). -/
structure ExerciseTemplate where
  name : String
  long_cycle_progression : Bool
  weight : ℚ
  weight_delta : ℚ
  sets : ℕ
  reps : ℤ
deriving DecidableEq

/-- `WorkoutSet` dataclass (src/workouts.py lines 16-21). -/
structure WorkoutSet where
  id : String
  weight : ℚ
  reps : ℤ
  completed : Bool
deriving DecidableEq

/-- `Exercise` dataclass (src/workouts.py lines 24-28). -/
structure Exercise where
  id : String
  template : ExerciseTemplate
  sets : List WorkoutSet
deriving DecidableEq

/-- Placeholder for `str(uuid.uuid4())`: the generated identifiers are
opaque and no verified property observes them. -/
def uuid4 : String := "uuid4"

/-- `Exercise.from_template` (src/workouts.py lines 30-39). -/
def Exercise.from_template (template : ExerciseTemplate) : Exercise :=
  { id := uuid4
    template := template
    sets := (List.range template.sets).map fun _ =>
      { id := uuid4, weight := template.weight, reps := template.reps, completed := false } }

/-- `WorkoutTemplate` dataclass (src/workouts.py lines 169-172). -/
structure WorkoutTemplate where
  name : String
  exercises : List ExerciseTemplate
deriving DecidableEq

/-- `ExerciseDiff` dataclass (src/workouts.py lines 212-219).  The
`sets_completed` literal type is modelled by the same string literals. -/
structure ExerciseDiff where
  exercise_name : String
  sets_completed : String
  weight_before : ℚ
  weight_after : ℚ
  reps_before : ℤ
  reps_after : ℤ
deriving DecidableEq

/-- `Workout` dataclass (src/workouts.py lines 222-226). -/
structure Workout where
  id : String
  template_name : String
  exercises : List Exercise
deriving DecidableEq

/-- `Workout.from_template` (src/workouts.py lines 228-234). -/
def Workout.from_template (template : WorkoutTemplate) : Workout :=
  { id := uuid4
    template_name := template.name
    exercises := template.exercises.map Exercise.from_template }

/-- `Workout.toggle_set_completed` (src/workouts.py lines 287-288).
The Python method's `self` parameter is unused: the set is mutated in
place; here the updated set is returned. -/
def Workout.toggle_set_completed (s : WorkoutSet) : WorkoutSet :=
  { s with completed := !s.completed }

/-- `Workout.change_reps` (src/workouts.py lines 290-294).  The Python
method's `self` is unused; the exercise is updated. -/
def change_reps (exercise : Exercise) (increase : Bool) : Exercise :=
  let delta : ℤ := if increase then 1 else -1
  { exercise with
    sets := exercise.sets.map fun s =>
      if !s.completed then { s with reps := max 0 (s.reps + delta) } else s }

/-- `Workout.change_weight` (src/workouts.py lines 296-300). -/
def change_weight (exercise : Exercise) (increase : Bool) : Exercise :=
  let delta : ℚ := if increase then exercise.template.weight_delta else -exercise.template.weight_delta
  { exercise with
    sets := exercise.sets.map fun s =>
      if !s.completed then { s with weight := round2 (s.weight + delta) } else s }

/-- First matching index, mirroring the `for i in range(len(templates))`
loop with `break` in `Workout.make_next` (src/workouts.py lines 241-244). -/
def findFirstIdx {α : Type} (p : α → Bool) : List α → Option ℕ
  | [] => Option.none
  | a :: as => if p a then Option.some 0 else (findFirstIdx p as).map (· + 1)

/-- Next-template selection, the first block of `Workout.make_next`
(src/workouts.py lines 238-244). -/
def selectNextIdx (previous_workouts : List Workout) (templates : List WorkoutTemplate) : ℕ :=
  match previous_workouts.getLast? with
  | Option.none => 0
  | Option.some last =>
    match findFirstIdx (fun t => t.name == last.template_name) templates with
    | Option.some i => (i + 1) % templates.length
    | Option.none => 0

/-- Which Python exception a partial operation in `make_next` would raise:
`catalogIndex` for `templates[idx]` on an empty catalog (IndexError),
`emptyMinMax` for `min`/`max` over an empty sequence (ValueError,
src/workouts.py lines 265-266), `setIndex` for `exercise.sets[0]` on an
empty list (IndexError, src/workouts.py lines 281-283). -/
inductive MakeNextError where
  | catalogIndex
  | emptyMinMax
  | setIndex
deriving DecidableEq

/-- `min(s.weight for s in sets)` (src/workouts.py line 265); `none` when
the sequence is empty and Python raises ValueError. -/
def minWeight? (sets : List WorkoutSet) : Option ℚ :=
  match sets.map (fun s => s.weight) with
  | [] => Option.none
  | x :: xs => Option.some (xs.foldl min x)

/-- `max(s.reps for s in sets)` (src/workouts.py line 266). -/
def maxReps? (sets : List WorkoutSet) : Option ℤ :=
  match sets.map (fun s => s.reps) with
  | [] => Option.none
  | x :: xs => Option.some (xs.foldl max x)

/-- The baseline assignment loop of `Workout.make_next`
(src/workouts.py lines 267-269): every set gets the base weight/reps. -/
def apply_baseline (base_weight : ℚ) (base_reps : ℤ) (exercise : Exercise) : Exercise :=
  { exercise with
    sets := exercise.sets.map fun s => { s with weight := base_weight, reps := base_reps } }

/-- The class-based adjustment of `Workout.make_next`
(src/workouts.py lines 270-276). -/
def adjust_exercise (prev_exercise : Exercise) (exercise : Exercise) : Exercise :=
  if prev_exercise.sets.all (fun s => s.completed) then
    change_weight exercise true
  else if prev_exercise.sets.any (fun s => s.completed) then
    change_reps (change_weight exercise false) false
  else
    exercise

/-- One iteration of the per-exercise loop of `Workout.make_next`
(src/workouts.py lines 257-284): find the same-named exercise of the
reference workout, carry the min-weight/max-reps baseline forward, adjust
by completion class, and emit the diff read off `exercise.sets[0]`. -/
def makeNextExercise (previous_with_template : Workout) (exercise : Exercise) :
    Except MakeNextError (Exercise × Option ExerciseDiff) :=
  match previous_with_template.exercises.find?
      (fun prev => prev.template.name == exercise.template.name) with
  | Option.none => Except.ok (exercise, Option.none)
  | Option.some prev_exercise =>
    match minWeight? prev_exercise.sets, maxReps? prev_exercise.sets with
    | Option.some base_weight, Option.some base_reps =>
      let e2 := adjust_exercise prev_exercise (apply_baseline base_weight base_reps exercise)
      match e2.sets.head? with
      | Option.some s0 =>
        Except.ok (e2, Option.some
          { exercise_name := exercise.template.name
            sets_completed :=
              if prev_exercise.sets.all (fun s => s.completed) then "all"
              else if prev_exercise.sets.any (fun s => s.completed) then "some"
              else "none"
            weight_before := base_weight
            weight_after := s0.weight
            reps_before := base_reps
            reps_after := s0.reps })
      | Option.none => Except.error MakeNextError.setIndex
    | _, _ => Except.error MakeNextError.emptyMinMax

/-- The whole per-exercise loop of `Workout.make_next`, in order
(src/workouts.py lines 255-284). -/
def makeNextExercises (previous_with_template : Workout) :
    List Exercise → Except MakeNextError (List (Exercise × Option ExerciseDiff))
  | [] => Except.ok []
  | e :: es =>
    match makeNextExercise previous_with_template e with
    | Except.error err => Except.error err
    | Except.ok p =>
      match makeNextExercises previous_with_template es with
      | Except.error err => Except.error err
      | Except.ok ps => Except.ok (p :: ps)

/-- `Workout.make_next` (src/workouts.py lines 236-285). -/
def make_next (previous_workouts : List Workout) (templates : List WorkoutTemplate) :
    Except MakeNextError (Workout × List ExerciseDiff) :=
  match templates.get? (selectNextIdx previous_workouts templates) with
  | Option.none => Except.error MakeNextError.catalogIndex
  | Option.some template =>
    let previous_with_template :=
      match previous_workouts.reverse.find? (fun w => w.template_name == template.name) with
      | Option.some w => w
      | Option.none => Workout.from_template template
    let workout := Workout.from_template template
    match makeNextExercises previous_with_template workout.exercises with
    | Except.error err => Except.error err
    | Except.ok ps => Except.ok ({ workout with exercises := ps.map Prod.fst }, ps.filterMap Prod.snd)

/-- Modelled from the spec: the error signalled by `run` on an absent
token (`UnknownActionError`, design document §4.2 and §7); the Action
Registry implementation is not among the source files, only its design
description. -/
inductive RegistryError where
  | unknownAction
deriving DecidableEq

/-- Modelled from the spec: the Action Registry of design document §4.2
(its implementation is not among the source files).  Entries map opaque
tokens to stored zero-argument actions, kept in insertion order (oldest
first).  Token freshness ("guaranteed unique among currently-live
entries") is modelled by a monotone counter; the stored action is an
opaque value of type `α`. -/
structure ActionRegistry (α : Type) where
  limit : ℕ
  nextToken : ℕ
  entries : List (ℕ × α)
deriving DecidableEq

/-- An empty registry with the given capacity limit (default 10000 in the
design document). -/
def ActionRegistry.empty (α : Type) (limit : ℕ) : ActionRegistry α :=
  { limit := limit, nextToken := 0, entries := [] }

/-- Modelled from the spec: `register(action) -> token` (§4.2): "if the
number of live entries exceeds a configured limit, evicts the oldest
limit/10 entries (insertion order) before inserting the new one"; returns
the fresh token together with the updated registry. -/
def ActionRegistry.register {α : Type} (r : ActionRegistry α) (a : α) : ℕ × ActionRegistry α :=
  let pruned := if r.limit < r.entries.length then r.entries.drop (r.limit / 10) else r.entries
  (r.nextToken,
    { limit := r.limit, nextToken := r.nextToken + 1, entries := pruned ++ [(r.nextToken, a)] })

/-- Register a whole list of actions in order, keeping only the registry. -/
def ActionRegistry.registerMany {α : Type} (r : ActionRegistry α) (as : List α) : ActionRegistry α :=
  as.foldl (fun acc a => (acc.register a).2) r

/-- Modelled from the spec: `run(token)` (§4.2): looks the token up,
fails with `UnknownActionError` if absent; the registry is NOT single-use,
so on success the entry persists and the (unchanged) registry is returned
alongside the stored action's value. -/
def ActionRegistry.run {α : Type} (r : ActionRegistry α) (t : ℕ) :
    Except RegistryError (α × ActionRegistry α) :=
  match r.entries.find? (fun e => e.1 == t) with
  | Option.some e => Except.ok (e.2, r)
  | Option.none => Except.error RegistryError.unknownAction

/-! ### Helper lemmas -/

theorem list_map_id_of {α : Type} {f : α → α} :
    ∀ {l : List α}, (∀ x ∈ l, f x = x) → l.map f = l
  | [], _ => rfl
  | x :: xs, h => by
    simp only [List.map_cons, List.cons.injEq]
    exact ⟨h x (List.mem_cons_self x xs), list_map_id_of fun y hy => h y (List.mem_cons_of_mem x hy)⟩

theorem change_reps_sets (exercise : Exercise) (increase : Bool) :
    (change_reps exercise increase).sets = exercise.sets.map fun s =>
      if !s.completed then { s with reps := max 0 (s.reps + if increase then 1 else -1) } else s := rfl

theorem change_weight_sets (exercise : Exercise) (increase : Bool) :
    (change_weight exercise increase).sets = exercise.sets.map fun s =>
      if !s.completed then
        { s with weight := round2 (s.weight +
            if increase then exercise.template.weight_delta else -exercise.template.weight_delta) }
      else s := rfl

theorem change_reps_nonneg {exercise : Exercise} (increase : Bool)
    (h : ∀ s ∈ exercise.sets, 0 ≤ s.reps) :
    ∀ s ∈ (change_reps exercise increase).sets, 0 ≤ s.reps := by
  intro s hs
  rw [change_reps_sets] at hs
  rcases List.mem_map.1 hs with ⟨t, ht, rfl⟩
  by_cases hc : t.completed
  · simpa [hc] using h t ht
  · simp [hc]

/-! ### C6, C7, C8 -/

/-- C6: starting from an exercise whose sets all have nonnegative reps,
any sequence of `change_reps` calls (each with either value of
`increase`) keeps every set's reps nonnegative; moreover a single
decrement sends each incomplete set's reps to `max 0 (reps - 1)`. -/
theorem reps_clamped_nonneg (ex : Exercise) (h : ∀ s ∈ ex.sets, 0 ≤ s.reps) :
    (∀ incs : List Bool, ∀ s ∈ (incs.foldl change_reps ex).sets, 0 ≤ s.reps)
    ∧ (∀ i s, ex.sets.get? i = Option.some s → s.completed = false →
        (change_reps ex false).sets.get? i =
          Option.some { s with reps := max 0 (s.reps - 1) }) := by
  constructor
  · intro incs
    induction incs generalizing ex with
    | nil => exact h
    | cons inc incs ih =>
      exact ih (change_reps ex inc) (change_reps_nonneg inc h)
  · intro i s hi hc
    rw [change_reps_sets, List.get?_map, hi]
    simp [hc, sub_eq_add_neg]

/-- A small concrete exercise template used by the closed witnesses. -/
def sampleTemplate : ExerciseTemplate :=
  { name := "Squat", long_cycle_progression := true
    weight := 40, weight_delta := 5, sets := 1, reps := 12 }

/-- A one-set incomplete exercise used by the closed witnesses. -/
def sampleIncompleteExercise : Exercise :=
  { id := "e", template := sampleTemplate
    sets := [{ id := "s", weight := 40, reps := 1, completed := false }] }

/-- A one-set completed exercise used by the closed witnesses. -/
def sampleCompletedExercise : Exercise :=
  { id := "e", template := sampleTemplate
    sets := [{ id := "s", weight := 40, reps := 12, completed := true }] }

/-- Closed instance of C6 with concrete sets, discharging its hypotheses. -/
theorem reps_clamped_nonneg_witness :
    (∀ s ∈ ([false, false, false].foldl change_reps sampleIncompleteExercise).sets, 0 ≤ s.reps)
    ∧ (change_reps sampleIncompleteExercise false).sets.get? 0 =
        Option.some { id := "s", weight := 40, reps := max 0 ((1 : ℤ) - 1), completed := false } :=
  ⟨(reps_clamped_nonneg sampleIncompleteExercise (by decide)).1 [false, false, false],
    (reps_clamped_nonneg sampleIncompleteExercise (by decide)).2 0
      { id := "s", weight := 40, reps := 1, completed := false } rfl rfl⟩

/-- C7: a completed set is never mutated by `change_weight` or
`change_reps`; in particular if every set is completed both operations
are the identity on the exercise. -/
theorem completed_sets_immutable (ex : Exercise) (increase : Bool) :
    (∀ i s, ex.sets.get? i = Option.some s → s.completed = true →
        (change_weight ex increase).sets.get? i = Option.some s
        ∧ (change_reps ex increase).sets.get? i = Option.some s)
    ∧ ((∀ s ∈ ex.sets, s.completed = true) →
        change_weight ex increase = ex ∧ change_reps ex increase = ex) := by
  constructor
  · intro i s hi hc
    constructor
    · rw [change_weight_sets, List.get?_map, hi]
      simp [hc]
    · rw [change_reps_sets, List.get?_map, hi]
      simp [hc]
  · intro hall
    constructor
    · show { ex with sets := _ } = ex
      rw [list_map_id_of fun s hs => by simp [hall s hs]]
    · show { ex with sets := _ } = ex
      rw [list_map_id_of fun s hs => by simp [hall s hs]]

/-- Closed instance of C7 on an all-completed exercise. -/
theorem completed_sets_immutable_witness :
    ((change_weight sampleCompletedExercise true).sets.get? 0 =
        Option.some { id := "s", weight := 40, reps := 12, completed := true }
      ∧ (change_reps sampleCompletedExercise true).sets.get? 0 =
        Option.some { id := "s", weight := 40, reps := 12, completed := true })
    ∧ change_weight sampleCompletedExercise true = sampleCompletedExercise
    ∧ change_reps sampleCompletedExercise true = sampleCompletedExercise :=
  ⟨(completed_sets_immutable sampleCompletedExercise true).1 0
      { id := "s", weight := 40, reps := 12, completed := true } rfl rfl,
    (completed_sets_immutable sampleCompletedExercise true).2 (by decide)⟩

/-- C8: `toggle_set_completed` flips exactly the `completed` flag (the
set's id, weight and reps are untouched) and is an involution. -/
theorem toggle_set_completed_involution (s : WorkoutSet) :
    (Workout.toggle_set_completed s).weight = s.weight
    ∧ (Workout.toggle_set_completed s).reps = s.reps
    ∧ (Workout.toggle_set_completed s).completed = !s.completed
    ∧ Workout.toggle_set_completed (Workout.toggle_set_completed s) = s := by
  refine ⟨rfl, rfl, rfl, ?_⟩
  simp [Workout.toggle_set_completed]

theorem findFirstIdx_eq_some_of {α : Type} (p : α → Bool) :
    ∀ (l : List α) (i : ℕ) (x : α), l.get? i = Option.some x → p x = true →
      (∀ j y, j < i → l.get? j = Option.some y → p y = false) →
      findFirstIdx p l = Option.some i
  | [], i, x, hget, _, _ => by simp at hget
  | a :: as, 0, x, hget, hp, _ => by
    have hax : a = x := by simpa using hget
    subst hax
    simp [findFirstIdx, hp]
  | a :: as, i + 1, x, hget, hp, hfirst => by
    have ha : p a = false := hfirst 0 a (Nat.succ_pos i) rfl
    have tail := findFirstIdx_eq_some_of p as i x (by simpa using hget) hp
      (fun j y hj hg => hfirst (j + 1) y (Nat.succ_lt_succ hj) (by simpa using hg))
    simp [findFirstIdx, ha, tail]

theorem findFirstIdx_eq_none_of {α : Type} (p : α → Bool) :
    ∀ l : List α, (∀ x ∈ l, p x = false) → findFirstIdx p l = Option.none
  | [], _ => rfl
  | a :: as, h => by
    have ha : p a = false := h a (List.mem_cons_self a as)
    have tail := findFirstIdx_eq_none_of p as fun x hx => h x (List.mem_cons_of_mem a hx)
    simp [findFirstIdx, ha, tail]

/-! ### C1 -/

/-- C1: with an empty history the next-template index is 0; otherwise,
if `i` is the index of the first catalog entry whose name equals the most
recent history entry's `template_name`, the index is `(i+1) mod
len(catalog)`; and if no catalog entry's name matches, the index is 0
(no error). -/
theorem select_next_template_rotation (templates : List WorkoutTemplate)
    (previous : List Workout) (hcat : templates ≠ []) :
    (previous = [] → selectNextIdx previous templates = 0)
    ∧ (∀ last, previous.getLast? = Option.some last →
        ((∀ i t, templates.get? i = Option.some t → t.name = last.template_name →
            (∀ j u, j < i → templates.get? j = Option.some u → u.name ≠ last.template_name) →
            selectNextIdx previous templates = (i + 1) % templates.length)
         ∧ ((∀ t ∈ templates, t.name ≠ last.template_name) →
            selectNextIdx previous templates = 0))) := by
  constructor
  · rintro rfl
    rfl
  · intro last hlast
    constructor
    · intro i t hget hname hfirst
      have hfind : findFirstIdx (fun t => t.name == last.template_name) templates =
          Option.some i := by
        refine findFirstIdx_eq_some_of _ templates i t hget ?_ ?_
        · simpa using hname
        · intro j y hj hg
          simpa using hfirst j y hj hg
      simp [selectNextIdx, hlast, hfind]
    · intro hnone
      have hfind : findFirstIdx (fun t => t.name == last.template_name) templates =
          Option.none := by
        refine findFirstIdx_eq_none_of _ templates fun x hx => ?_
        simpa using hnone x hx
      simp [selectNextIdx, hlast, hfind]

/-- Concrete two-template catalogs used by the rotation witness. -/
def templateA : WorkoutTemplate := { name := "A", exercises := [] }

def templateB : WorkoutTemplate := { name := "B", exercises := [] }

def workoutNamedA : Workout := { id := "w", template_name := "A", exercises := [] }

/-- Closed instance of C1: history [A] rotates to index 1 of [A, B],
and an empty history selects index 0. -/
theorem select_next_template_rotation_witness :
    selectNextIdx [workoutNamedA] [templateA, templateB] = 1
    ∧ selectNextIdx [] [templateA, templateB] = 0 :=
  ⟨((select_next_template_rotation [templateA, templateB] [workoutNamedA] (by decide)).2
      workoutNamedA rfl).1 0 templateA rfl rfl
      (fun j u hj _ => absurd hj (Nat.not_lt_zero j)),
   (select_next_template_rotation [templateA, templateB] [] (by decide)).1 rfl⟩

theorem foldl_min_le_init {α : Type} [LinearOrder α] :
    ∀ (l : List α) (a : α), l.foldl min a ≤ a
  | [], a => le_refl a
  | x :: xs, a => le_trans (foldl_min_le_init xs (min a x)) (min_le_left a x)

theorem foldl_min_le_mem {α : Type} [LinearOrder α] :
    ∀ (l : List α) (a x : α), x ∈ l → l.foldl min a ≤ x
  | y :: ys, a, x, h => by
    rcases List.mem_cons.1 h with rfl | hx
    · exact le_trans (foldl_min_le_init ys (min a x)) (min_le_right a x)
    · exact foldl_min_le_mem ys (min a y) x hx

theorem foldl_min_mem {α : Type} [LinearOrder α] :
    ∀ (l : List α) (a : α), l.foldl min a = a ∨ l.foldl min a ∈ l
  | [], a => Or.inl rfl
  | x :: xs, a => by
    rcases foldl_min_mem xs (min a x) with h | h
    · rcases min_choice a x with hm | hm
      · exact Or.inl (by rw [List.foldl_cons, h, hm])
      · exact Or.inr (by rw [List.foldl_cons, h, hm]; exact List.mem_cons_self x xs)
    · exact Or.inr (List.mem_cons_of_mem x h)

theorem foldl_max_init_le {α : Type} [LinearOrder α] :
    ∀ (l : List α) (a : α), a ≤ l.foldl max a
  | [], a => le_refl a
  | x :: xs, a => le_trans (le_max_left a x) (foldl_max_init_le xs (max a x))

theorem foldl_max_mem_le {α : Type} [LinearOrder α] :
    ∀ (l : List α) (a x : α), x ∈ l → x ≤ l.foldl max a
  | y :: ys, a, x, h => by
    rcases List.mem_cons.1 h with rfl | hx
    · exact le_trans (le_max_right a x) (foldl_max_init_le ys (max a x))
    · exact foldl_max_mem_le ys (max a y) x hx

theorem foldl_max_mem {α : Type} [LinearOrder α] :
    ∀ (l : List α) (a : α), l.foldl max a = a ∨ l.foldl max a ∈ l
  | [], a => Or.inl rfl
  | x :: xs, a => by
    rcases foldl_max_mem xs (max a x) with h | h
    · rcases max_choice a x with hm | hm
      · exact Or.inl (by rw [List.foldl_cons, h, hm])
      · exact Or.inr (by rw [List.foldl_cons, h, hm]; exact List.mem_cons_self x xs)
    · exact Or.inr (List.mem_cons_of_mem x h)

/-- `min(s.weight for s in sets)` of a non-empty list of sets is attained
by some set and bounds every set's weight from below. -/
theorem minWeight?_spec (sets : List WorkoutSet) (hne : sets ≠ []) :
    ∃ bw, minWeight? sets = Option.some bw
      ∧ bw ∈ sets.map (fun s => s.weight)
      ∧ ∀ w ∈ sets.map (fun s => s.weight), bw ≤ w := by
  cases hs : sets.map (fun s => s.weight) with
  | nil => exact absurd (List.map_eq_nil.1 hs) hne
  | cons x xs =>
    refine ⟨xs.foldl min x, by simp [minWeight?, hs], ?_, ?_⟩
    · rcases foldl_min_mem xs x with h | h
      · rw [h]; exact List.mem_cons_self x xs
      · exact List.mem_cons_of_mem x h
    · intro w hw
      rcases List.mem_cons.1 hw with rfl | hw
      · exact foldl_min_le_init xs w
      · exact foldl_min_le_mem xs x w hw

/-- `max(s.reps for s in sets)` of a non-empty list of sets is attained
by some set and bounds every set's reps from above. -/
theorem maxReps?_spec (sets : List WorkoutSet) (hne : sets ≠ []) :
    ∃ br, maxReps? sets = Option.some br
      ∧ br ∈ sets.map (fun s => s.reps)
      ∧ ∀ r ∈ sets.map (fun s => s.reps), r ≤ br := by
  cases hs : sets.map (fun s => s.reps) with
  | nil => exact absurd (List.map_eq_nil.1 hs) hne
  | cons x xs =>
    refine ⟨xs.foldl max x, by simp [maxReps?, hs], ?_, ?_⟩
    · rcases foldl_max_mem xs x with h | h
      · rw [h]; exact List.mem_cons_self x xs
      · exact List.mem_cons_of_mem x h
    · intro r hr
      rcases List.mem_cons.1 hr with rfl | hr
      · exact foldl_max_init_le xs r
      · exact foldl_max_mem_le xs x r hr

/-! ### C2 -/

/-- C2: an exercise of the new workout with no same-named exercise in the
reference workout is skipped unchanged and emits no diff; when the first
same-named reference exercise exists and has sets, the carried-forward
baseline assigns to every set of the new exercise the minimum weight and
maximum reps observed over the reference exercise's sets, keeping
`completed = false`, and this happens before any class-based adjustment
(`makeNextExercise` applies `adjust_exercise` to `apply_baseline`'s
output). -/
theorem baseline_and_skip (prevW : Workout) (ex : Exercise) :
    ((∀ p ∈ prevW.exercises, p.template.name ≠ ex.template.name) →
      makeNextExercise prevW ex = Except.ok (ex, Option.none))
    ∧ (∀ prevE,
        prevW.exercises.find? (fun p => p.template.name == ex.template.name) =
          Option.some prevE →
        prevE.sets ≠ [] →
        (∀ s ∈ ex.sets, s.completed = false) →
        ∃ bw br,
          minWeight? prevE.sets = Option.some bw
          ∧ maxReps? prevE.sets = Option.some br
          ∧ bw ∈ prevE.sets.map (fun s => s.weight)
          ∧ (∀ w ∈ prevE.sets.map (fun s => s.weight), bw ≤ w)
          ∧ br ∈ prevE.sets.map (fun s => s.reps)
          ∧ (∀ r ∈ prevE.sets.map (fun s => s.reps), r ≤ br)
          ∧ (apply_baseline bw br ex).sets.length = ex.sets.length
          ∧ (∀ s ∈ (apply_baseline bw br ex).sets,
              s.weight = bw ∧ s.reps = br ∧ s.completed = false)) := by
  constructor
  · intro hskip
    have hfind : prevW.exercises.find?
        (fun p => p.template.name == ex.template.name) = Option.none := by
      rw [List.find?_eq_none]
      intro p hp
      simpa using hskip p hp
    simp [makeNextExercise, hfind]
  · intro prevE hfind hne hfresh
    obtain ⟨bw, hmin, hbwmem, hbwle⟩ := minWeight?_spec prevE.sets hne
    obtain ⟨br, hmax, hbrmem, hbrle⟩ := maxReps?_spec prevE.sets hne
    refine ⟨bw, br, hmin, hmax, hbwmem, hbwle, hbrmem, hbrle, ?_, ?_⟩
    · simp [apply_baseline]
    · intro s hs
      rcases List.mem_map.1 hs with ⟨t, ht, rfl⟩
      exact ⟨rfl, rfl, hfresh t ht⟩

/-- A reference workout holding the all-completed sample exercise. -/
def sampleReferenceWorkout : Workout :=
  { id := "w", template_name := "T", exercises := [sampleCompletedExercise] }

/-- A freshly instantiated exercise from the sample template. -/
def sampleFreshExercise : Exercise := Exercise.from_template sampleTemplate

/-- A reference workout with no exercises, so any lookup in it skips. -/
def sampleEmptyWorkout : Workout := { id := "w", template_name := "T", exercises := [] }

/-- Closed instance of C2 on concrete data: the baseline part on a
matching reference, and the skip part on a reference containing no
same-named exercise. -/
theorem baseline_and_skip_witness :
    (∃ bw br,
      minWeight? sampleCompletedExercise.sets = Option.some bw
      ∧ maxReps? sampleCompletedExercise.sets = Option.some br
      ∧ bw ∈ sampleCompletedExercise.sets.map (fun s => s.weight)
      ∧ (∀ w ∈ sampleCompletedExercise.sets.map (fun s => s.weight), bw ≤ w)
      ∧ br ∈ sampleCompletedExercise.sets.map (fun s => s.reps)
      ∧ (∀ r ∈ sampleCompletedExercise.sets.map (fun s => s.reps), r ≤ br)
      ∧ (apply_baseline bw br sampleFreshExercise).sets.length =
          sampleFreshExercise.sets.length
      ∧ (∀ s ∈ (apply_baseline bw br sampleFreshExercise).sets,
          s.weight = bw ∧ s.reps = br ∧ s.completed = false))
    ∧ makeNextExercise sampleEmptyWorkout sampleFreshExercise =
        Except.ok (sampleFreshExercise, Option.none) :=
  ⟨(baseline_and_skip sampleReferenceWorkout sampleFreshExercise).2
      sampleCompletedExercise rfl (by decide) (by decide),
    (baseline_and_skip sampleEmptyWorkout sampleFreshExercise).1 (by decide)⟩

theorem apply_baseline_template (bw : ℚ) (br : ℤ) (ex : Exercise) :
    (apply_baseline bw br ex).template = ex.template := rfl

theorem makeNextExercise_eq_of_found (prevW : Workout) (ex prevE : Exercise)
    (bw : ℚ) (br : ℤ) (s0 : WorkoutSet)
    (hfind : prevW.exercises.find? (fun p => p.template.name == ex.template.name) =
      Option.some prevE)
    (hmin : minWeight? prevE.sets = Option.some bw)
    (hmax : maxReps? prevE.sets = Option.some br)
    (hhead : (adjust_exercise prevE (apply_baseline bw br ex)).sets.head? = Option.some s0) :
    makeNextExercise prevW ex = Except.ok
      (adjust_exercise prevE (apply_baseline bw br ex), Option.some
        { exercise_name := ex.template.name
          sets_completed :=
            if prevE.sets.all (fun s => s.completed) then "all"
            else if prevE.sets.any (fun s => s.completed) then "some"
            else "none"
          weight_before := bw
          weight_after := s0.weight
          reps_before := br
          reps_after := s0.reps }) := by
  simp [makeNextExercise, hfind, hmin, hmax, hhead]

theorem exists_cons_of_ne_nil {α : Type} {l : List α} (h : l ≠ []) :
    ∃ x xs, l = x :: xs := by
  cases l with
  | nil => exact absurd rfl h
  | cons x xs => exact ⟨x, xs, rfl⟩

/-- Sets of the adjusted exercise in the all-completed class. -/
theorem adjust_sets_all (prevE : Exercise) (ex : Exercise) (bw : ℚ) (br : ℤ)
    (hall : prevE.sets.all (fun s => s.completed) = true)
    (hfresh : ∀ s ∈ ex.sets, s.completed = false) :
    (adjust_exercise prevE (apply_baseline bw br ex)).sets = ex.sets.map fun s =>
      { id := s.id, weight := round2 (bw + ex.template.weight_delta), reps := br,
        completed := false } := by
  rw [adjust_exercise, if_pos hall, change_weight_sets]
  show (ex.sets.map _).map _ = _
  rw [List.map_map]
  refine List.map_congr_left fun s hs => ?_
  have hc : s.completed = false := hfresh s hs
  simp [Function.comp, hc, apply_baseline_template]

/-- Sets of the adjusted exercise in the some-completed class. -/
theorem adjust_sets_some (prevE : Exercise) (ex : Exercise) (bw : ℚ) (br : ℤ)
    (hall : prevE.sets.all (fun s => s.completed) = false)
    (hany : prevE.sets.any (fun s => s.completed) = true)
    (hfresh : ∀ s ∈ ex.sets, s.completed = false) :
    (adjust_exercise prevE (apply_baseline bw br ex)).sets = ex.sets.map fun s =>
      { id := s.id, weight := round2 (bw + -ex.template.weight_delta),
        reps := max 0 (br + -1), completed := false } := by
  rw [adjust_exercise, if_neg (by simp [hall]), if_pos hany, change_reps_sets,
    change_weight_sets]
  show ((ex.sets.map _).map _).map _ = _
  rw [List.map_map, List.map_map]
  refine List.map_congr_left fun s hs => ?_
  have hc : s.completed = false := hfresh s hs
  simp [Function.comp, hc, apply_baseline_template]

/-- Sets of the adjusted exercise in the none-completed class. -/
theorem adjust_sets_none (prevE : Exercise) (ex : Exercise) (bw : ℚ) (br : ℤ)
    (hany : prevE.sets.any (fun s => s.completed) = false)
    (hne : prevE.sets ≠ []) :
    (adjust_exercise prevE (apply_baseline bw br ex)).sets = ex.sets.map fun s =>
      { id := s.id, weight := bw, reps := br, completed := s.completed } := by
  have hall : prevE.sets.all (fun s => s.completed) = false := by
    obtain ⟨p, ps, hp⟩ := exists_cons_of_ne_nil hne
    have hpc : p.completed = false := by
      have := List.any_eq_false.1 hany p (by rw [hp]; exact List.mem_cons_self p ps)
      simpa using this
    refine List.all_eq_false.2 ⟨p, by rw [hp]; exact List.mem_cons_self p ps, by simp [hpc]⟩
  rw [adjust_exercise, if_neg (by simp [hall]), if_neg (by simp [hany])]
  rfl

/-! ### C3 -/

/-- C3: when every set of the reference exercise is completed, the new
exercise gets exactly one weight increment — every set's weight becomes
`round2(base_weight + weight_delta)` with reps unchanged at the baseline —
and the emitted diff is classified "all". -/
theorem progression_on_success (prevW : Workout) (ex prevE : Exercise)
    (hfind : prevW.exercises.find? (fun p => p.template.name == ex.template.name) =
      Option.some prevE)
    (hne : prevE.sets ≠ [])
    (hall : ∀ s ∈ prevE.sets, s.completed = true)
    (hfresh : ∀ s ∈ ex.sets, s.completed = false)
    (hex : ex.sets ≠ []) :
    ∃ bw br e2 d,
      minWeight? prevE.sets = Option.some bw
      ∧ maxReps? prevE.sets = Option.some br
      ∧ makeNextExercise prevW ex = Except.ok (e2, Option.some d)
      ∧ (∀ s ∈ e2.sets,
          s.weight = round2 (bw + ex.template.weight_delta) ∧ s.reps = br ∧ s.completed = false)
      ∧ d.sets_completed = "all"
      ∧ d.weight_before = bw
      ∧ d.weight_after = round2 (bw + ex.template.weight_delta)
      ∧ d.reps_before = br
      ∧ d.reps_after = br := by
  obtain ⟨bw, hmin, -, -⟩ := minWeight?_spec prevE.sets hne
  obtain ⟨br, hmax, -, -⟩ := maxReps?_spec prevE.sets hne
  have hallb : prevE.sets.all (fun s => s.completed) = true :=
    List.all_eq_true.2 fun s hs => hall s hs
  have hsets2 := adjust_sets_all prevE ex bw br hallb hfresh
  obtain ⟨s1, rest, hxs⟩ := exists_cons_of_ne_nil hex
  have hhead : (adjust_exercise prevE (apply_baseline bw br ex)).sets.head? =
      Option.some { id := s1.id, weight := round2 (bw + ex.template.weight_delta),
                    reps := br, completed := false } := by
    rw [hsets2, hxs]
    rfl
  have heq := makeNextExercise_eq_of_found prevW ex prevE bw br _ hfind hmin hmax hhead
  refine ⟨bw, br, _, _, hmin, hmax, heq, ?_, ?_, rfl, rfl, rfl, rfl⟩
  · intro s hs
    rw [hsets2] at hs
    rcases List.mem_map.1 hs with ⟨t, ht, rfl⟩
    exact ⟨rfl, rfl, rfl⟩
  · simp [hallb]

/-- The spec's concrete progression example: weight_delta 2.5, three sets
completed at weight 40, reps 12. -/
def benchTemplate : ExerciseTemplate :=
  { name := "Bench Press", long_cycle_progression := true
    weight := 40, weight_delta := 5/2, sets := 3, reps := 12 }

def benchFresh : Exercise := Exercise.from_template benchTemplate

def benchPrevAll : Exercise :=
  { id := "p", template := benchTemplate
    sets := [{ id := "a", weight := 40, reps := 12, completed := true },
      { id := "b", weight := 40, reps := 12, completed := true },
      { id := "c", weight := 40, reps := 12, completed := true }] }

def benchRefAll : Workout :=
  { id := "w", template_name := "T", exercises := [benchPrevAll] }

/-- Closed instance of C3: all sets completed at 40.0 with delta 2.5
yield 42.5 on every new set. -/
theorem progression_on_success_witness :
    (∃ bw br e2 d,
      minWeight? benchPrevAll.sets = Option.some bw
      ∧ maxReps? benchPrevAll.sets = Option.some br
      ∧ makeNextExercise benchRefAll benchFresh = Except.ok (e2, Option.some d)
      ∧ (∀ s ∈ e2.sets,
          s.weight = round2 (bw + benchFresh.template.weight_delta) ∧ s.reps = br
          ∧ s.completed = false)
      ∧ d.sets_completed = "all"
      ∧ d.weight_before = bw
      ∧ d.weight_after = round2 (bw + benchFresh.template.weight_delta)
      ∧ d.reps_before = br
      ∧ d.reps_after = br)
    ∧ round2 (40 + benchTemplate.weight_delta) = 85/2 :=
  ⟨progression_on_success benchRefAll benchFresh benchPrevAll rfl (by decide) (by decide)
      (by decide) (by decide),
    by norm_num [round2, roundHalfEven, Rat.floor, benchTemplate]⟩

/-! ### C4 -/

/-- C4: when at least one but not all sets of the reference exercise are
completed, the new exercise gets exactly one weight decrement and one rep
decrement — every set's weight becomes `round2(base_weight - weight_delta)`
and reps `max 0 (base_reps - 1)` — and the diff is classified "some". -/
theorem regression_on_partial_sets (prevW : Workout) (ex prevE : Exercise)
    (hfind : prevW.exercises.find? (fun p => p.template.name == ex.template.name) =
      Option.some prevE)
    (hne : prevE.sets ≠ [])
    (hsome : ∃ s ∈ prevE.sets, s.completed = true)
    (hnotall : ∃ s ∈ prevE.sets, s.completed = false)
    (hfresh : ∀ s ∈ ex.sets, s.completed = false)
    (hex : ex.sets ≠ []) :
    ∃ bw br e2 d,
      minWeight? prevE.sets = Option.some bw
      ∧ maxReps? prevE.sets = Option.some br
      ∧ makeNextExercise prevW ex = Except.ok (e2, Option.some d)
      ∧ (∀ s ∈ e2.sets,
          s.weight = round2 (bw - ex.template.weight_delta) ∧ s.reps = max 0 (br - 1)
          ∧ s.completed = false)
      ∧ d.sets_completed = "some"
      ∧ d.weight_before = bw
      ∧ d.weight_after = round2 (bw - ex.template.weight_delta)
      ∧ d.reps_before = br
      ∧ d.reps_after = max 0 (br - 1) := by
  obtain ⟨bw, hmin, -, -⟩ := minWeight?_spec prevE.sets hne
  obtain ⟨br, hmax, -, -⟩ := maxReps?_spec prevE.sets hne
  have hallb : prevE.sets.all (fun s => s.completed) = false := by
    obtain ⟨p, hp, hpc⟩ := hnotall
    exact List.all_eq_false.2 ⟨p, hp, by simp [hpc]⟩
  have hanyb : prevE.sets.any (fun s => s.completed) = true := by
    obtain ⟨p, hp, hpc⟩ := hsome
    exact List.any_eq_true.2 ⟨p, hp, by simp [hpc]⟩
  have hsets2 := adjust_sets_some prevE ex bw br hallb hanyb hfresh
  obtain ⟨s1, rest, hxs⟩ := exists_cons_of_ne_nil hex
  have hhead : (adjust_exercise prevE (apply_baseline bw br ex)).sets.head? =
      Option.some { id := s1.id, weight := round2 (bw + -ex.template.weight_delta),
                    reps := max 0 (br + -1), completed := false } := by
    rw [hsets2, hxs]
    rfl
  have heq := makeNextExercise_eq_of_found prevW ex prevE bw br _ hfind hmin hmax hhead
  have hsub : round2 (bw + -ex.template.weight_delta) = round2 (bw - ex.template.weight_delta) := by
    rw [sub_eq_add_neg]
  have hsub2 : max 0 (br + -1) = max 0 (br - 1) := by
    rw [sub_eq_add_neg]
  refine ⟨bw, br, _, _, hmin, hmax, heq, ?_, ?_, rfl, ?_, rfl, ?_⟩
  · intro s hs
    rw [hsets2] at hs
    rcases List.mem_map.1 hs with ⟨t, ht, rfl⟩
    exact ⟨hsub, hsub2, rfl⟩
  · simp [hallb, hanyb]
  · exact hsub
  · exact hsub2

/-- The spec's concrete regression example: 2 of 3 sets completed. -/
def benchPrevSome : Exercise :=
  { id := "p", template := benchTemplate
    sets := [{ id := "a", weight := 40, reps := 12, completed := true },
      { id := "b", weight := 40, reps := 12, completed := true },
      { id := "c", weight := 40, reps := 12, completed := false }] }

def benchRefSome : Workout :=
  { id := "w", template_name := "T", exercises := [benchPrevSome] }

/-- Closed instance of C4: 2 of 3 sets completed at 40.0/12 with delta
2.5 yield 37.5 and 11 reps. -/
theorem regression_on_partial_sets_witness :
    (∃ bw br e2 d,
      minWeight? benchPrevSome.sets = Option.some bw
      ∧ maxReps? benchPrevSome.sets = Option.some br
      ∧ makeNextExercise benchRefSome benchFresh = Except.ok (e2, Option.some d)
      ∧ (∀ s ∈ e2.sets,
          s.weight = round2 (bw - benchFresh.template.weight_delta) ∧ s.reps = max 0 (br - 1)
          ∧ s.completed = false)
      ∧ d.sets_completed = "some"
      ∧ d.weight_before = bw
      ∧ d.weight_after = round2 (bw - benchFresh.template.weight_delta)
      ∧ d.reps_before = br
      ∧ d.reps_after = max 0 (br - 1))
    ∧ round2 (40 - benchTemplate.weight_delta) = 75/2 ∧ max 0 ((12 : ℤ) - 1) = 11 :=
  ⟨regression_on_partial_sets benchRefSome benchFresh benchPrevSome rfl (by decide)
      ⟨{ id := "a", weight := 40, reps := 12, completed := true }, by decide, rfl⟩
      ⟨{ id := "c", weight := 40, reps := 12, completed := false }, by decide, rfl⟩
      (by decide) (by decide),
    by norm_num [round2, roundHalfEven, Rat.floor, benchTemplate], by decide⟩

/-! ### C5 -/

theorem makeNextExercise_none_class (prevW : Workout) (ex prevE : Exercise)
    (hfind : prevW.exercises.find? (fun p => p.template.name == ex.template.name) =
      Option.some prevE)
    (hne : prevE.sets ≠ [])
    (hnone : ∀ s ∈ prevE.sets, s.completed = false)
    (hex : ex.sets ≠ []) :
    ∃ bw br e2 d,
      minWeight? prevE.sets = Option.some bw
      ∧ maxReps? prevE.sets = Option.some br
      ∧ makeNextExercise prevW ex = Except.ok (e2, Option.some d)
      ∧ (∀ s ∈ e2.sets, s.weight = bw ∧ s.reps = br)
      ∧ d.sets_completed = "none"
      ∧ d.weight_before = bw
      ∧ d.weight_after = bw
      ∧ d.reps_before = br
      ∧ d.reps_after = br := by
  obtain ⟨bw, hmin, -, -⟩ := minWeight?_spec prevE.sets hne
  obtain ⟨br, hmax, -, -⟩ := maxReps?_spec prevE.sets hne
  have hanyb : prevE.sets.any (fun s => s.completed) = false :=
    List.any_eq_false.2 fun s hs => by simp [hnone s hs]
  have hallb : prevE.sets.all (fun s => s.completed) = false := by
    obtain ⟨p, ps, hp⟩ := exists_cons_of_ne_nil hne
    have hpc := hnone p (by rw [hp]; exact List.mem_cons_self p ps)
    exact List.all_eq_false.2 ⟨p, by rw [hp]; exact List.mem_cons_self p ps, by simp [hpc]⟩
  have hsets2 := adjust_sets_none prevE ex bw br hanyb hne
  obtain ⟨s1, rest, hxs⟩ := exists_cons_of_ne_nil hex
  have hhead : (adjust_exercise prevE (apply_baseline bw br ex)).sets.head? =
      Option.some { id := s1.id, weight := bw, reps := br, completed := s1.completed } := by
    rw [hsets2, hxs]
    rfl
  have heq := makeNextExercise_eq_of_found prevW ex prevE bw br _ hfind hmin hmax hhead
  refine ⟨bw, br, _, _, hmin, hmax, heq, ?_, by simp [hallb, hanyb], rfl, rfl, rfl, rfl⟩
  intro s hs
  rw [hsets2] at hs
  rcases List.mem_map.1 hs with ⟨t, ht, rfl⟩
  exact ⟨rfl, rfl⟩

theorem makeNextExercises_ok_all (prevW : Workout) (P : ExerciseDiff → Prop) :
    ∀ exs : List Exercise,
      (∀ ex ∈ exs, ∃ e od, makeNextExercise prevW ex = Except.ok (e, od)
        ∧ ∀ d, od = Option.some d → P d) →
      ∃ ps, makeNextExercises prevW exs = Except.ok ps
        ∧ ∀ pr ∈ ps, ∀ d, pr.2 = Option.some d → P d
  | [], _ => ⟨[], rfl, by simp⟩
  | e :: es, h => by
    obtain ⟨e1, od, heq, hP⟩ := h e (List.mem_cons_self e es)
    obtain ⟨ps, hps, hPs⟩ :=
      makeNextExercises_ok_all prevW P es fun x hx => h x (List.mem_cons_of_mem e hx)
    refine ⟨(e1, od) :: ps, ?_, ?_⟩
    · simp [makeNextExercises, heq, hps]
    · intro pr hpr d hd
      rcases List.mem_cons.1 hpr with rfl | hpr
      · exact hP d hd
      · exact hPs pr hpr d hd

theorem selectNextIdx_lt (previous : List Workout) (templates : List WorkoutTemplate)
    (h : templates ≠ []) : selectNextIdx previous templates < templates.length := by
  have hpos : 0 < templates.length := List.length_pos.2 h
  cases hg : previous.getLast? with
  | none => simpa [selectNextIdx, hg] using hpos
  | some last =>
    cases hf : findFirstIdx (fun t => t.name == last.template_name) templates with
    | none => simpa [selectNextIdx, hg, hf] using hpos
    | some i => simpa [selectNextIdx, hg, hf] using Nat.mod_lt (i + 1) hpos

theorem from_template_sets_completed (et : ExerciseTemplate) :
    ∀ s ∈ (Exercise.from_template et).sets, s.completed = false := by
  intro s hs
  rcases List.mem_map.1 hs with ⟨t, ht, rfl⟩
  rfl

theorem from_template_sets_length (et : ExerciseTemplate) :
    (Exercise.from_template et).sets.length = et.sets := by
  simp [Exercise.from_template]

theorem from_template_sets_ne_nil (et : ExerciseTemplate) (h : 1 ≤ et.sets) :
    (Exercise.from_template et).sets ≠ [] := by
  intro hnil
  have hlen := from_template_sets_length et
  rw [hnil] at hlen
  simp at hlen
  omega

/-- C5: (1) whenever no set of the reference exercise is completed, the
per-exercise step applies no adjustment: the new exercise keeps the
carried-forward baseline and the diff is classified "none" with
weight_after == weight_before and reps_after == reps_before; (2) when no
previous workout carries the selected template's name, the reference is a
fresh instantiation of the template and `make_next` succeeds with every
emitted diff classified "none" and unchanged. -/
theorem no_change_on_none :
    (∀ (prevW : Workout) (ex prevE : Exercise),
      prevW.exercises.find? (fun p => p.template.name == ex.template.name) =
        Option.some prevE →
      prevE.sets ≠ [] →
      (∀ s ∈ prevE.sets, s.completed = false) →
      ex.sets ≠ [] →
      ∃ bw br e2 d,
        minWeight? prevE.sets = Option.some bw
        ∧ maxReps? prevE.sets = Option.some br
        ∧ makeNextExercise prevW ex = Except.ok (e2, Option.some d)
        ∧ (∀ s ∈ e2.sets, s.weight = bw ∧ s.reps = br)
        ∧ d.sets_completed = "none"
        ∧ d.weight_after = d.weight_before
        ∧ d.reps_after = d.reps_before)
    ∧ (∀ (templates : List WorkoutTemplate) (previous : List Workout),
      templates ≠ [] →
      (∀ t ∈ templates, ∀ et ∈ t.exercises, 1 ≤ et.sets) →
      (∀ w ∈ previous, ∀ t ∈ templates, w.template_name ≠ t.name) →
      ∃ w ds, make_next previous templates = Except.ok (w, ds)
        ∧ ∀ d ∈ ds, d.sets_completed = "none"
          ∧ d.weight_after = d.weight_before
          ∧ d.reps_after = d.reps_before) := by
  constructor
  · intro prevW ex prevE hfind hne hnone hex
    obtain ⟨bw, br, e2, d, hmin, hmax, heq, hsets, hclass, hwb, hwa, hrb, hra⟩ :=
      makeNextExercise_none_class prevW ex prevE hfind hne hnone hex
    exact ⟨bw, br, e2, d, hmin, hmax, heq, hsets, hclass,
      by rw [hwa, hwb], by rw [hra, hrb]⟩
  · intro templates previous hcat hsets hnomatch
    have hlt := selectNextIdx_lt previous templates hcat
    obtain ⟨template, hget⟩ : ∃ t,
        templates.get? (selectNextIdx previous templates) = Option.some t := by
      cases hg : templates.get? (selectNextIdx previous templates) with
      | none => exact absurd hlt (by simpa using List.get?_eq_none.1 hg)
      | some t => exact ⟨t, rfl⟩
    have htmem : template ∈ templates := List.get?_mem hget
    have hfindrev : previous.reverse.find?
        (fun w => w.template_name == template.name) = Option.none := by
      rw [List.find?_eq_none]
      intro w hw
      simpa using hnomatch w (List.mem_reverse.1 hw) template htmem
    have hok : ∀ ex ∈ (Workout.from_template template).exercises,
        ∃ e od, makeNextExercise (Workout.from_template template) ex = Except.ok (e, od)
          ∧ ∀ d, od = Option.some d →
            d.sets_completed = "none" ∧ d.weight_after = d.weight_before
              ∧ d.reps_after = d.reps_before := by
      intro ex hx
      rcases List.mem_map.1 hx with ⟨et, het, rfl⟩
      have hexne := from_template_sets_ne_nil et (hsets template htmem et het)
      cases hfind : (Workout.from_template template).exercises.find?
          (fun p => p.template.name == (Exercise.from_template et).template.name) with
      | none =>
        refine ⟨Exercise.from_template et, Option.none, ?_, ?_⟩
        · simp [makeNextExercise, hfind]
        · intro d hd
          cases hd
      | some prevE =>
        have hpmem := List.mem_of_find?_eq_some hfind
        rcases List.mem_map.1 hpmem with ⟨et2, het2, hpe⟩
        have hpne : prevE.sets ≠ [] := by
          rw [← hpe]
          exact from_template_sets_ne_nil et2 (hsets template htmem et2 het2)
        have hpnone : ∀ s ∈ prevE.sets, s.completed = false := by
          rw [← hpe]
          exact from_template_sets_completed et2
        obtain ⟨bw, br, e2, d, hmin, hmax, heq, hpsets, hclass, hwb, hwa, hrb, hra⟩ :=
          makeNextExercise_none_class (Workout.from_template template)
            (Exercise.from_template et) prevE hfind hpne hpnone hexne
        refine ⟨e2, Option.some d, heq, ?_⟩
        intro d2 hd2
        cases hd2
        exact ⟨hclass, by rw [hwa, hwb], by rw [hra, hrb]⟩
    obtain ⟨ps, hps, hPs⟩ := makeNextExercises_ok_all (Workout.from_template template) _
      (Workout.from_template template).exercises hok
    have hget2 : templates[selectNextIdx previous templates]? = Option.some template := by
      simpa using hget
    refine ⟨{ Workout.from_template template with exercises := ps.map Prod.fst },
      ps.filterMap Prod.snd, ?_, ?_⟩
    · simp [make_next, hget2, hfindrev, hps]
    · intro d hd
      rcases List.mem_filterMap.1 hd with ⟨pr, hpr, hprd⟩
      exact hPs pr hpr d hprd

/-- A reference exercise with no completed sets. -/
def benchPrevNone : Exercise :=
  { id := "p", template := benchTemplate
    sets := [{ id := "a", weight := 40, reps := 12, completed := false },
      { id := "b", weight := 40, reps := 12, completed := false },
      { id := "c", weight := 40, reps := 12, completed := false }] }

def benchRefNone : Workout :=
  { id := "w", template_name := "T", exercises := [benchPrevNone] }

/-- Closed instance of C5: the per-exercise part on a zero-completed
reference, and the end-to-end part with a one-template catalog and empty
history, where `make_next` succeeds with all-"none" unchanged diffs. -/
theorem no_change_on_none_witness :
    (∃ bw br e2 d,
      minWeight? benchPrevNone.sets = Option.some bw
      ∧ maxReps? benchPrevNone.sets = Option.some br
      ∧ makeNextExercise benchRefNone benchFresh = Except.ok (e2, Option.some d)
      ∧ (∀ s ∈ e2.sets, s.weight = bw ∧ s.reps = br)
      ∧ d.sets_completed = "none"
      ∧ d.weight_after = d.weight_before
      ∧ d.reps_after = d.reps_before)
    ∧ ∃ w ds, make_next [] [{ name := "T", exercises := [benchTemplate] }] = Except.ok (w, ds)
      ∧ ∀ d ∈ ds, d.sets_completed = "none"
        ∧ d.weight_after = d.weight_before
        ∧ d.reps_after = d.reps_before :=
  ⟨no_change_on_none.1 benchRefNone benchFresh benchPrevNone rfl (by decide) (by decide)
      (by decide),
    no_change_on_none.2 [{ name := "T", exercises := [benchTemplate] }] []
      (by decide) (by decide) (by decide)⟩

/-! ### C10 -/

theorem adjust_sets_length (prevE e : Exercise) :
    (adjust_exercise prevE e).sets.length = e.sets.length := by
  rw [adjust_exercise]
  by_cases h1 : prevE.sets.all (fun s => s.completed) = true
  · rw [if_pos h1, change_weight_sets]
    simp
  · rw [if_neg h1]
    by_cases h2 : prevE.sets.any (fun s => s.completed) = true
    · rw [if_pos h2, change_reps_sets, change_weight_sets]
      simp
    · rw [if_neg h2]

theorem makeNextExercises_ok_of_nonempty (prevW : Workout)
    (hprev : ∀ p ∈ prevW.exercises, p.sets ≠ []) (exs : List Exercise)
    (hexs : ∀ ex ∈ exs, ex.sets ≠ []) :
    ∃ ps, makeNextExercises prevW exs = Except.ok ps := by
  have hok : ∀ ex ∈ exs, ∃ e od, makeNextExercise prevW ex = Except.ok (e, od)
      ∧ ∀ d, od = Option.some d → True := ?_
  · obtain ⟨ps, hps, -⟩ := makeNextExercises_ok_all prevW (fun _ => True) exs hok
    exact ⟨ps, hps⟩
  intro ex hx
  cases hfind : prevW.exercises.find? (fun p => p.template.name == ex.template.name) with
  | none =>
    exact ⟨ex, Option.none, by simp [makeNextExercise, hfind], fun d hd => trivial⟩
  | some prevE =>
    have hpne : prevE.sets ≠ [] := hprev prevE (List.mem_of_find?_eq_some hfind)
    obtain ⟨bw, hmin, -, -⟩ := minWeight?_spec prevE.sets hpne
    obtain ⟨br, hmax, -, -⟩ := maxReps?_spec prevE.sets hpne
    have hlen : (adjust_exercise prevE (apply_baseline bw br ex)).sets.length =
        ex.sets.length := by
      rw [adjust_sets_length]
      simp [apply_baseline]
    have he2ne : (adjust_exercise prevE (apply_baseline bw br ex)).sets ≠ [] := by
      intro hnil
      rw [hnil] at hlen
      exact hexs ex hx (List.length_eq_zero.1 hlen.symm)
    obtain ⟨s0, rest0, hs0⟩ := exists_cons_of_ne_nil he2ne
    have hhead : (adjust_exercise prevE (apply_baseline bw br ex)).sets.head? =
        Option.some s0 := by
      rw [hs0]
      rfl
    exact ⟨_, _, makeNextExercise_eq_of_found prevW ex prevE bw br s0 hfind hmin hmax hhead,
      fun d hd => trivial⟩

/-- A reference exercise with zero sets: its sets list is empty while its
template nominally declares 3 sets. -/
def zeroSetExercise : Exercise := { id := "e", template := benchTemplate, sets := [] }

def zeroSetWorkout : Workout :=
  { id := "w", template_name := "W1", exercises := [zeroSetExercise] }

def zeroSetCatalog : WorkoutTemplate := { name := "W1", exercises := [benchTemplate] }

/-- C10 (amended): under the precondition that every exercise template of
the catalog has at least one set and every history exercise is well-formed
(its sets list has the template's positive length), `make_next` never hits
the empty-min/max error nor the empty `sets[0]` error; without the
precondition, a zero-set reference exercise makes `min` over an empty
sequence fail (Python's ValueError) before any classification or first-set
access is reached. -/
theorem make_next_safety :
    (∀ (templates : List WorkoutTemplate) (previous : List Workout),
      (∀ t ∈ templates, ∀ et ∈ t.exercises, 1 ≤ et.sets) →
      (∀ w ∈ previous, ∀ e ∈ w.exercises,
        e.sets.length = e.template.sets ∧ 1 ≤ e.template.sets) →
      make_next previous templates ≠ Except.error MakeNextError.emptyMinMax
      ∧ make_next previous templates ≠ Except.error MakeNextError.setIndex)
    ∧ make_next [zeroSetWorkout] [zeroSetCatalog] =
        Except.error MakeNextError.emptyMinMax := by
  constructor
  · intro templates previous hcat hwf
    cases hget : templates.get? (selectNextIdx previous templates) with
    | none =>
      have hget2 : templates[selectNextIdx previous templates]? = Option.none := by
        simpa using hget
      constructor <;> simp [make_next, hget2]
    | some template =>
      have hget2 : templates[selectNextIdx previous templates]? = Option.some template := by
        simpa using hget
      have htmem : template ∈ templates := List.get?_mem hget
      have hxne : ∀ ex ∈ (Workout.from_template template).exercises, ex.sets ≠ [] := by
        intro ex hx
        rcases List.mem_map.1 hx with ⟨et, het, rfl⟩
        exact from_template_sets_ne_nil et (hcat template htmem et het)
      cases hfr : previous.reverse.find? (fun w => w.template_name == template.name) with
      | some w =>
        have hwmem : w ∈ previous := List.mem_reverse.1 (List.mem_of_find?_eq_some hfr)
        have hprev : ∀ p ∈ w.exercises, p.sets ≠ [] := by
          intro p hp
          obtain ⟨hlen, hpos⟩ := hwf w hwmem p hp
          intro hnil
          rw [hnil] at hlen
          simp at hlen
          omega
        obtain ⟨ps, hps⟩ := makeNextExercises_ok_of_nonempty w hprev _ hxne
        constructor <;> simp [make_next, hget2, hfr, hps]
      | none =>
        obtain ⟨ps, hps⟩ := makeNextExercises_ok_of_nonempty
          (Workout.from_template template) hxne _ hxne
        constructor <;> simp [make_next, hget2, hfr, hps]
  · rfl

/-- Closed instance of the safety half of C10 on a concrete well-formed
catalog and empty history. -/
theorem make_next_safety_witness :
    make_next [] [zeroSetCatalog] ≠ Except.error MakeNextError.emptyMinMax
    ∧ make_next [] [zeroSetCatalog] ≠ Except.error MakeNextError.setIndex :=
  make_next_safety.1 [zeroSetCatalog] [] (by decide) (by decide)

/-- Counterexample to C10 as stated: on a zero-set reference exercise the
computation fails with the empty-min/max error (Python raises ValueError at
`min(...)` on line 265) and never reaches a vacuous "all" classification
nor the `sets[0]` IndexError the claim describes. -/
theorem make_next_zero_set_counterexample :
    make_next [zeroSetWorkout] [zeroSetCatalog] = Except.error MakeNextError.emptyMinMax
    ∧ make_next [zeroSetWorkout] [zeroSetCatalog] ≠ Except.error MakeNextError.setIndex :=
  ⟨rfl, fun h => MakeNextError.noConfusion (Except.error.inj h)⟩

/-! ### C9 -/

theorem find?_append_none {α : Type} (p : α → Bool) :
    ∀ (l1 l2 : List α), l1.find? p = Option.none → (l1 ++ l2).find? p = l2.find? p
  | [], l2, _ => rfl
  | a :: as, l2, h => by
    cases hpa : p a with
    | true => rw [List.find?_cons_of_pos as hpa] at h; cases h
    | false =>
      rw [List.find?_cons_of_neg as (by simp [hpa])] at h
      rw [List.cons_append, List.find?_cons_of_neg _ (by simp [hpa])]
      exact find?_append_none p as l2 h

theorem drop_zip {α β : Type} :
    ∀ (n : ℕ) (l1 : List α) (l2 : List β), (l1.zip l2).drop n = (l1.drop n).zip (l2.drop n)
  | 0, _, _ => rfl
  | n + 1, [], l2 => by simp
  | n + 1, a :: as, [] => by simp
  | n + 1, a :: as, b :: bs => by
    rw [List.zip_cons_cons, List.drop_succ_cons, List.drop_succ_cons, List.drop_succ_cons]
    exact drop_zip n as bs

theorem drop_range' : ∀ (n s m : ℕ), (List.range' s m).drop n = List.range' (s + n) (m - n)
  | 0, s, m => by simp
  | n + 1, s, 0 => by simp
  | n + 1, s, m + 1 => by
    rw [List.range'_succ s m 1, List.drop_succ_cons, drop_range' n (s + 1) m]
    congr 1
    all_goals omega

theorem registerMany_cons {α : Type} (r : ActionRegistry α) (a : α) (as : List α) :
    r.registerMany (a :: as) = ((r.register a).2).registerMany as := rfl

/-- As long as inserting keeps the entry count at most `limit + 1`, no
eviction fires: registering appends entries tagged with consecutive
tokens. -/
theorem registerMany_no_evict {α : Type} :
    ∀ (as : List α) (r : ActionRegistry α),
      r.entries.length + as.length ≤ r.limit + 1 →
      (r.registerMany as).limit = r.limit
      ∧ (r.registerMany as).nextToken = r.nextToken + as.length
      ∧ (r.registerMany as).entries =
          r.entries ++ (List.range' r.nextToken as.length).zip as
  | [], r, _ => ⟨rfl, by simp [ActionRegistry.registerMany], by
      simp [ActionRegistry.registerMany]⟩
  | a :: as, r, h => by
    have hnlt : ¬ r.limit < r.entries.length := by
      simp only [List.length_cons] at h
      omega
    have hstep : (r.register a).2 =
        { limit := r.limit, nextToken := r.nextToken + 1,
          entries := r.entries ++ [(r.nextToken, a)] } := by
      simp [ActionRegistry.register, if_neg hnlt]
    have hlen : ((r.register a).2).entries.length + as.length ≤ ((r.register a).2).limit + 1 := by
      rw [hstep]
      simp only [List.length_append, List.length_cons, List.length_nil]
      simp only [List.length_cons] at h
      omega
    obtain ⟨h1, h2, h3⟩ := registerMany_no_evict as ((r.register a).2) hlen
    rw [registerMany_cons]
    refine ⟨by rw [h1, hstep], by rw [h2, hstep]; simp; omega, ?_⟩
    rw [h3, hstep]
    simp only [List.length_cons]
    rw [List.range'_succ r.nextToken as.length 1, List.zip_cons_cons, List.append_assoc]
    rfl

theorem run_absent {α : Type} (r : ActionRegistry α) (t : ℕ)
    (h : ∀ e ∈ r.entries, e.1 ≠ t) :
    r.run t = Except.error RegistryError.unknownAction := by
  have hf : r.entries.find? (fun e => e.1 == t) = Option.none :=
    List.find?_eq_none.2 fun e he => by simpa using h e he
  simp [ActionRegistry.run, hf]

theorem run_not_consuming {α : Type} (r r1 : ActionRegistry α) (t : ℕ) (a : α)
    (h : r.run t = Except.ok (a, r1)) : r1.run t = Except.ok (a, r1) := by
  unfold ActionRegistry.run at h
  cases hf : r.entries.find? (fun e => e.1 == t) with
  | none => rw [hf] at h; cases h
  | some e =>
    rw [hf] at h
    obtain ⟨ha, hr⟩ : e.2 = a ∧ r = r1 := by
      injection h with h1
      exact ⟨congrArg Prod.fst h1, congrArg Prod.snd h1⟩
    subst ha
    subst hr
    simp [ActionRegistry.run, hf]

/-- Registering `limit + 2` actions into an empty registry triggers
exactly one batch eviction: tokens below `limit / 10` become
unresolvable while the newest token `limit + 1` still resolves. -/
theorem registerMany_eviction_run {α : Type} (L : ℕ) (as : List α)
    (h : as.length = L + 2) :
    (∀ t, t < L / 10 →
      ((ActionRegistry.empty α L).registerMany as).run t =
        Except.error RegistryError.unknownAction)
    ∧ ∃ a, ((ActionRegistry.empty α L).registerMany as).run (L + 1) =
        Except.ok (a, (ActionRegistry.empty α L).registerMany as) := by
  have hasne : as ≠ [] := by
    intro hnil
    rw [hnil] at h
    simp at h
  have hsplit : as.dropLast ++ [as.getLast hasne] = as :=
    List.dropLast_append_getLast hasne
  set init := as.dropLast with hinit
  set alast := as.getLast hasne with halast
  have hinitlen : init.length = L + 1 := by
    rw [hinit, List.length_dropLast, h]
    rfl
  obtain ⟨h1, h2, h3⟩ := registerMany_no_evict init (ActionRegistry.empty α L)
    (by simp [ActionRegistry.empty, hinitlen])
  have hrm : (ActionRegistry.empty α L).registerMany as =
      (((ActionRegistry.empty α L).registerMany init).register alast).2 := by
    rw [← hsplit, ActionRegistry.registerMany, ActionRegistry.registerMany,
      List.foldl_append]
    rfl
  have hzlen : ((List.range' 0 (L + 1)).zip init).length = L + 1 := by
    rw [List.length_zip, List.length_range', hinitlen]
    simp
  have hentlen : ((ActionRegistry.empty α L).registerMany init).entries.length = L + 1 := by
    rw [h3]
    simp [ActionRegistry.empty, hinitlen]
  have hX : (ActionRegistry.empty α L).registerMany init =
      { limit := L, nextToken := L + 1, entries := (List.range' 0 (L + 1)).zip init } := by
    cases hxv : (ActionRegistry.empty α L).registerMany init with
    | mk lim tok ent =>
      rw [hxv] at h1 h2 h3
      simp only [ActionRegistry.empty, hinitlen, List.nil_append, Nat.zero_add] at h1 h2 h3
      simp only [ActionRegistry.mk.injEq]
      exact ⟨h1, h2, h3⟩
  have hfinal : ((ActionRegistry.empty α L).registerMany as).entries =
      (List.range' (L / 10) (L + 1 - L / 10)).zip (init.drop (L / 10)) ++ [(L + 1, alast)] := by
    rw [hrm, hX, ActionRegistry.register]
    simp only
    rw [if_pos (by rw [hzlen]; omega)]
    rw [drop_zip, drop_range']
    simp
  constructor
  · intro t ht
    apply run_absent
    rw [hfinal]
    intro e he
    rcases List.mem_append.1 he with hz | hl
    · have hkey : e.1 ∈ List.range' (L / 10) (L + 1 - L / 10) :=
        (List.of_mem_zip hz).1
      rw [List.mem_range'] at hkey
      omega
    · have : e = (L + 1, alast) := by simpa using hl
      rw [this]
      omega
  · refine ⟨alast, ?_⟩
    have hfind : ((ActionRegistry.empty α L).registerMany as).entries.find?
        (fun e => e.1 == L + 1) = Option.some (L + 1, alast) := by
      rw [hfinal]
      rw [find?_append_none]
      · simp
      · rw [List.find?_eq_none]
        intro e he
        have hkey : e.1 ∈ List.range' (L / 10) (L + 1 - L / 10) :=
          (List.of_mem_zip he).1
        rw [List.mem_range'] at hkey
        simp only [beq_iff_eq]
        omega
    simp [ActionRegistry.run, hfind]

/-- C9 (amended): `run` on an absent token signals `UnknownActionError`;
`run` never removes a live entry (running a resolved token again succeeds
with the same result); and since `register` evicts the oldest `limit/10`
entries only once the live count already exceeds `limit`, it is after
registering `limit + 2` actions (not `limit + 1`) that the oldest
`limit/10` tokens become unresolvable while the most recently registered
token remains resolvable. -/
theorem action_registry_behaviour :
    (∀ (α : Type) (r : ActionRegistry α) (t : ℕ),
      (∀ e ∈ r.entries, e.1 ≠ t) →
      r.run t = Except.error RegistryError.unknownAction)
    ∧ (∀ (α : Type) (r r1 : ActionRegistry α) (t : ℕ) (a : α),
      r.run t = Except.ok (a, r1) → r1.run t = Except.ok (a, r1))
    ∧ (∀ (α : Type) (L : ℕ) (as : List α), as.length = L + 2 →
      (∀ t, t < L / 10 →
        ((ActionRegistry.empty α L).registerMany as).run t =
          Except.error RegistryError.unknownAction)
      ∧ ∃ a, ((ActionRegistry.empty α L).registerMany as).run (L + 1) =
          Except.ok (a, (ActionRegistry.empty α L).registerMany as)) :=
  ⟨fun _ r t h => run_absent r t h,
    fun _ r r1 t a h => run_not_consuming r r1 t a h,
    fun _ L as h => registerMany_eviction_run L as h⟩

/-- Closed instance of (amended) C9 with limit 10: an unregistered token
signals the error, a live token re-runs successfully, and after 12
registrations token 0 is gone while token 11 resolves. -/
theorem action_registry_behaviour_witness :
    (ActionRegistry.empty Unit 10).run 0 = Except.error RegistryError.unknownAction
    ∧ ((ActionRegistry.empty Unit 10).registerMany [()]).run 0 =
        Except.ok ((), (ActionRegistry.empty Unit 10).registerMany [()])
    ∧ ((ActionRegistry.empty Unit 10).registerMany (List.replicate 12 ())).run 0 =
      Except.error RegistryError.unknownAction
    ∧ ∃ a, ((ActionRegistry.empty Unit 10).registerMany (List.replicate 12 ())).run 11 =
        Except.ok (a, (ActionRegistry.empty Unit 10).registerMany (List.replicate 12 ())) :=
  ⟨action_registry_behaviour.1 Unit (ActionRegistry.empty Unit 10) 0 (by decide),
    action_registry_behaviour.2.1 Unit ((ActionRegistry.empty Unit 10).registerMany [()])
      ((ActionRegistry.empty Unit 10).registerMany [()]) 0 () rfl,
    (action_registry_behaviour.2.2 Unit 10 (List.replicate 12 ()) (by decide)).1 0 (by decide),
    (action_registry_behaviour.2.2 Unit 10 (List.replicate 12 ()) (by decide)).2⟩

/-- Counterexample to C9 as stated: with `limit = 10`, registering
`limit + 1 = 11` actions into an empty registry evicts nothing — the
oldest token 0 still resolves instead of signalling
`UnknownActionError`. -/
theorem action_registry_eviction_counterexample :
    ((ActionRegistry.empty Unit 10).registerMany (List.replicate 11 ())).run 0 =
      Except.ok ((), (ActionRegistry.empty Unit 10).registerMany (List.replicate 11 ()))
    ∧ ((ActionRegistry.empty Unit 10).registerMany (List.replicate 11 ())).run 0 ≠
      Except.error RegistryError.unknownAction :=
  ⟨rfl, fun h => Except.noConfusion h⟩

end Gymbot
